import Mathlib

/-!
# MTWrapper: vectorized multi-threaded execution wrapper

A shallow embedding of `src/runtime/local/vectorized/MTWrapper.h`.

The two `execute` overloads are modelled as functions that turn a call into a
`Trace`: the final values of the local variables of `execute` together with the
log of what it did (workers spawned, tasks enqueued, threads joined, workers
deleted, sub-results destroyed).  A call that stops early (failed `assert`, null
dereference, division by zero, a worker slot beyond the end of the worker arrays,
a loop that never ends) yields the trace up to
that point with `fault` set; the `assert`s are taken as checked (a build without
`NDEBUG`).

Machine integers are natural numbers or integers with explicit reduction modulo
`2 ^ 32` / `2 ^ 64` wherever the C++ arithmetic can wrap.  The single-precision
conversions of the heterogeneous split are modelled exactly on integers.
-/

namespace Daphne

/-! ## Machine arithmetic -/

/-- Number of values of `uint32_t`. -/
def UINT32 : Nat := 2 ^ 32

/-- Number of values of `uint64_t`, `size_t` and `unsigned long`. -/
def UINT64 : Nat := 2 ^ 64

/-- Conversion of a signed value to `uint32_t` (reduction modulo `2 ^ 32`). -/
def toUInt32 (v : Int) : Nat := (v % 4294967296).toNat

/-- Conversion of a signed value to `unsigned long` (reduction modulo `2 ^ 64`). -/
def toUInt64 (v : Int) : Nat := (v % 18446744073709551616).toNat

/-- Conversion of an `unsigned long` to `int` (two's complement, low 32 bits). -/
def toInt32 (v : Nat) : Int :=
  if v % 4294967296 < 2147483648 then ((v % 4294967296 : Nat) : Int)
  else ((v % 4294967296 : Nat) : Int) - 4294967296

/-- The number of low-order bits of `n` that do not fit into a significand of `p`
bits: the least `e` with `n / 2 ^ e < 2 ^ p`, searched for at most `fuel` steps. -/
def excessBits (p : Nat) : Nat → Nat → Nat
  | 0, _ => 0
  | fuel + 1, n => if n < 2 ^ p then 0 else excessBits p fuel (n / 2) + 1

/-- Conversion of an unsigned 64-bit integer to a binary floating-point number
with a significand of `p` bits, rounding to nearest, ties to even (the default
IEEE 754 rounding).  The value of such a number is an integer; it is returned as
a natural number. -/
def roundToSignificand (p n : Nat) : Nat :=
  let e := excessBits p 64 n
  let q := n / 2 ^ e
  let r := n % 2 ^ e
  if 2 * r < 2 ^ e then q * 2 ^ e
  else if 2 ^ e < 2 * r then (q + 1) * 2 ^ e
  else if q % 2 = 0 then q * 2 ^ e
  else (q + 1) * 2 ^ e

/-- The value of `static_cast<float>(n)` for an unsigned 64-bit `n`. -/
def toFloat (n : Nat) : Nat := roundToSignificand 24 n

/-- The value of the conversion of an unsigned 64-bit `n` to `double`. -/
def toDouble (n : Nat) : Nat := roundToSignificand 53 n

/-! ## Data model -/

/-- Modelled from the spec: the split policy of an operand.  The enumeration
`mlir::daphne::VectorSplit` is declared in `ir/daphneir/Daphne.h`, which is not
among the sources; the spec lists the policies `ROWS`, `COLS` and `NONE`. -/
inductive VectorSplit
  | NONE
  | ROWS
  | COLS
deriving DecidableEq, Repr

/-- Modelled from the spec: the combine policy of an output.  The enumeration
`mlir::daphne::VectorCombine` is declared in `ir/daphneir/Daphne.h`, which is not
among the sources; the spec lists the policies `ROWS`, `COLS` and `ADD`. -/
inductive VectorCombine
  | ROWS
  | COLS
  | ADD
deriving DecidableEq, Repr

/-- What `execute` reads of a caller-owned `DenseMatrix`: `getNumRows()`,
`getNumCols()` and `bufferSize()`. -/
structure DenseMatrix where
  numRows : Nat
  numCols : Nat
  bufferSize : Nat
deriving DecidableEq, Repr

/-- A matrix that a result pointer (`res`, `res_cuda`, `res_cpp`) can point to. -/
inductive MatrixRef
  /-- a matrix supplied by the caller -/
  | supplied (m : DenseMatrix)
  /-- the matrix returned by `DataObjectFactory::create(rows, cols, zero)` -/
  | created (rows cols : Int) (zero : Bool)
  /-- the view returned by `of->slice(lo, hi)` -/
  | slice (of : MatrixRef) (lo hi : Nat)
deriving DecidableEq, Repr

/-- The matrix a view was sliced from. -/
def MatrixRef.base : MatrixRef → MatrixRef
  | .slice m _ _ => m.base
  | m => m

/-- What `execute` reads of the runtime context `ctx`. -/
structure DaphneContext where
  /-- value of `ctx->useCUDA()` -/
  useCUDA : Bool
  /-- value of `ctx->cuda_contexts.size()` -/
  cuda_contexts : Nat
  /-- value of `ctx->getCUDAContext(0)->getMemBudget()`, a `size_t` -/
  memBudget : Nat
deriving DecidableEq, Repr

/-- A task as constructed by `execute`: `CompiledPipelineTask` (or, in the
deprecated overload, `SingleOpTask`, which has no offset). -/
structure Task where
  /-- index of the pipeline function in `funcs` -/
  func : Nat
  /-- the output pointer handed to the task -/
  res : Option MatrixRef
  /-- first unit of the range -/
  rl : Nat
  /-- one past the last unit of the range -/
  ru : Nat
  /-- batch size -/
  bs : Nat
  /-- offset of the range in the output -/
  offset : Nat
deriving DecidableEq, Repr

/-- Reasons for which a call does not run to its end. -/
inductive Fault
  /-- the check `assert(numOutputs == 1)` failed -/
  | assertNumOutputs
  /-- the check `assert(numCUDAworkerThreads == 1)` failed -/
  | assertCUDADevices
  /-- the call `res->bufferSize()` was made on a null `res` -/
  | nullResult
  /-- integer division by zero -/
  | divisionByZero
  /-- a floating-point value outside the range of `size_t` was converted -/
  | floatOutOfRange
  /-- a slot beyond the end of the arrays `workers` and `workerThreads` was used -/
  | outOfBounds
  /-- a loop did not end within the given number of steps -/
  | notTerminated
deriving DecidableEq, Repr

/-- The state of a call of `execute`: its local variables and the log of what it
did so far. -/
structure Trace where
  /-- value of `_numThreads` used by the call -/
  numThreads : Nat := 0
  len : Nat := 0
  mem_required : Nat := 0
  /-- arguments of the call of `DataObjectFactory::create`, if one was made -/
  allocated : Option (Int × Int × Bool) := none
  /-- the in/out result pointer `res` -/
  res : Option MatrixRef := none
  gpu_task_len : Nat := 0
  cpu_task_len : Nat := 0
  batchsize : Nat := 100
  offset : Nat := 0
  numCUDAworkerThreads : Nat := 0
  numCPPworkerThreads : Int := 0
  active_workers : Nat := 0
  /-- capacity of the queue `q_CUDA`, if it was constructed -/
  q_CUDA : Option Nat := none
  /-- capacity of the queue `q`, if it was constructed -/
  q : Option Nat := none
  res_cuda : Option MatrixRef := none
  res_cpp : Option MatrixRef := none
  /-- tasks enqueued on `q_CUDA`, in order -/
  cudaTasks : List Task := []
  /-- tasks enqueued on `q`, in order -/
  cpuTasks : List Task := []
  /-- slots of `workers` in which a worker on `q_CUDA` was created and started -/
  cudaSlots : List Nat := []
  /-- slots of `workers` in which a worker on `q` was created and started -/
  cpuSlots : List Nat := []
  /-- slots whose thread was joined -/
  joined : List Nat := []
  /-- slots whose worker was deleted -/
  deleted : List Nat := []
  /-- matrices handed to `DataObjectFactory::destroy` -/
  destroyed : List MatrixRef := []
  fault : Option Fault := none
deriving DecidableEq, Repr

/-- Runs the next stage unless the call has already stopped. -/
def Trace.andThen (t : Trace) (f : Trace → Trace) : Trace :=
  match t.fault with
  | some _ => t
  | none => f t

/-- The object `MTWrapper`: its only field. -/
structure MTWrapper where
  _numThreads : Nat
deriving DecidableEq, Repr

/-- The constructor `MTWrapper(uint32_t numThreads)`. -/
def MTWrapper.new (numThreads : Nat) : MTWrapper :=
  { _numThreads := if numThreads ≤ 0 then 32 else numThreads }

/-- The arguments of the multi-operand `execute`, and what it obtains from its
collaborators. -/
structure Call where
  /-- value of `std::stoi` on the environment variable `DAPHNE_THREADS`, if it is set -/
  DAPHNE_THREADS : Option Int
  /-- value of `funcs.size()` -/
  funcs : Nat
  /-- the matrix `res` points to on entry, if it is not null -/
  res : Option DenseMatrix
  /-- the pairs of `splits[i]` and `inputs[i]` for `i < numInputs` -/
  operands : List (VectorSplit × DenseMatrix)
  numOutputs : Nat
  /-- value of `outRows[0]` -/
  outRows : Int
  /-- value of `outCols[0]` -/
  outCols : Int
  /-- value of `combines[0]` -/
  combine : VectorCombine
  /-- the context, if `ctx` is not null -/
  ctx : Option DaphneContext
  /-- value of `bufferSize()` on the matrix that `DataObjectFactory::create` returns -/
  createdBufferSize : Nat
  /-- the chunk sizes that `LoadPartitioning(STATIC, tasks, chunkParam, workers,
  false)` hands out through `hasNextChunk()` / `getNextChunk()`; the class is
  declared in `LoadPartitioning.h`, which is not among the sources -/
  lp : (tasks : Nat) → (chunkParam : Nat) → (workers : Int) → List Nat

/-- The arguments of the deprecated two-operand `execute`. -/
structure DeprecatedCall where
  DAPHNE_THREADS : Option Int
  res : Option DenseMatrix
  input1 : DenseMatrix
  input2 : DenseMatrix
  lp : (tasks : Nat) → (chunkParam : Nat) → (workers : Int) → List Nat

/-! ## Loops -/

/-- The loop `for (uint32_t i = i0; i < n; i++)` with `n` an unsigned value of at
most 64 bits, whose body uses slot `i` of the arrays `workers` and
`workerThreads`, which have `size` elements (`_numThreads`, lines 66-67 and
124-125): the values of `i` for which the body runs.  The run stops when the
body would use a slot beyond the end of the arrays, or when the loop does not
end within `fuel` tests of its condition. -/
def slotLoop : Nat → Nat → Nat → Nat → Except Fault (List Nat)
  | 0, _, _, _ => Except.error Fault.notTerminated
  | fuel + 1, size, i, n =>
    if i < n then
      if i < size then
        match slotLoop fuel size ((i + 1) % UINT32) n with
        | Except.ok l => Except.ok (i :: l)
        | Except.error e => Except.error e
      else Except.error Fault.outOfBounds
    else Except.ok []

/-- The loop `for (uint32_t k = k0; k < gpu_task_len; k += blksize)` enqueuing a
task on `[k, std::min(k + blksize, len))`: the ranges, or `none` if the loop does
not end within `fuel` tests of its condition. -/
def cudaTaskLoop : Nat → Nat → Nat → Nat → Nat → Option (List (Nat × Nat))
  | 0, _, _, _, _ => none
  | fuel + 1, k, gpu_task_len, blksize, len =>
    if k < gpu_task_len then
      (cudaTaskLoop fuel ((k + blksize) % UINT32) gpu_task_len blksize len).map
        (fun l => (k, min ((k + blksize) % UINT64) len) :: l)
    else some []

/-- The loop `while (lp.hasNextChunk())` over the chunk sizes handed out by the
load partitioner: `endChunk += chunk`, a task on `[startChunk, endChunk)`,
`startChunk = endChunk`. -/
def cpuTaskLoop (startChunk endChunk : Nat) : List Nat → List (Nat × Nat)
  | [] => []
  | c :: cs =>
    (startChunk, (endChunk + c) % UINT64) ::
      cpuTaskLoop ((endChunk + c) % UINT64) ((endChunk + c) % UINT64) cs

/-! ## The multi-operand `execute` -/

/-- The override of `_numThreads` by `DAPHNE_THREADS` at the start of `execute`. -/
def readThreads (w : MTWrapper) (env : Option Int) : Nat :=
  match env with
  | some v => toUInt32 v
  | none => w._numThreads

/-- The sizing loop: `len` and `mem_required` after all operands were visited. -/
def sizing (operands : List (VectorSplit × DenseMatrix)) : Nat × Nat :=
  operands.foldl
    (fun acc op =>
      (if op.1 = VectorSplit.ROWS then max acc.1 op.2.numRows else acc.1,
       (acc.2 + op.2.bufferSize) % UINT64))
    (0, 0)

/-- The value of `bufferSize()` on a result matrix. -/
def resBufferSize (c : Call) : MatrixRef → Nat
  | .supplied m => m.bufferSize
  | _ => c.createdBufferSize

/-- Lines 119-145: thread-count override, sizing, output allocation. -/
def stageSetup (w : MTWrapper) (c : Call) : Trace :=
  let t : Trace :=
    { numThreads := readThreads w c.DAPHNE_THREADS
      len := (sizing c.operands).1
      mem_required := (sizing c.operands).2
      res := c.res.map MatrixRef.supplied }
  if c.numOutputs ≠ 1 then { t with fault := some Fault.assertNumOutputs }
  else
    let zeroOut := decide (c.combine = VectorCombine.ADD)
    let alloc := decide (c.res = none) && decide (c.outRows ≠ -1) && decide (c.outCols ≠ -1)
    let t : Trace :=
      if alloc then
        { t with allocated := some (c.outRows, c.outCols, zeroOut)
                 res := some (MatrixRef.created c.outRows c.outCols zeroOut) }
      else t
    match t.res with
    | none => { t with fault := some Fault.nullResult }
    | some r => { t with mem_required := (t.mem_required + resBufferSize c r) % UINT64 }

/-- The condition `ctx && ctx->useCUDA() && funcs.size() > 1`. -/
def cudaSelected (c : Call) : Bool :=
  match c.ctx with
  | some ctx => ctx.useCUDA && decide (1 < c.funcs)
  | none => false

/-- Lines 153-216: the heterogeneous split, the accelerator queue, its workers and
its tasks.  `taskRatioCUDA` is `1.0` or `0.5`; it is kept as its denominator.
The quotient of two floats is below `1.0` exactly when the dividend is below the
divisor (a zero divisor gives an infinity or a NaN, which is not below `1.0`). -/
def stageCUDA (fuel : Nat) (c : Call) (ctx : DaphneContext) (t : Trace) : Trace :=
  let taskRatioDen : Nat := if toFloat t.mem_required < toFloat ctx.memBudget then 1 else 2
  if t.len = 0 then { t with fault := some Fault.divisionByZero }
  else
    let row_mem := t.mem_required / t.len
    let gpu_task_len := (toFloat t.len + taskRatioDen - 1) / taskRatioDen
    if UINT64 ≤ gpu_task_len then { t with fault := some Fault.floatOutOfRange }
    else
      let t : Trace :=
        { t with gpu_task_len := gpu_task_len, numCUDAworkerThreads := ctx.cuda_contexts }
      if ctx.cuda_contexts ≠ 1 then { t with fault := some Fault.assertCUDADevices }
      else if row_mem = 0 then { t with fault := some Fault.divisionByZero }
      else
        let blksize := toDouble (ctx.memBudget / row_mem)
        if UINT64 ≤ blksize then { t with fault := some Fault.floatOutOfRange }
        else
          let t : Trace := { t with batchsize := blksize, q_CUDA := some t.len }
          match slotLoop fuel t.numThreads 0 t.numCUDAworkerThreads with
          | Except.error e => { t with fault := some e }
          | Except.ok slots =>
            let res_cuda :=
              if c.combine = VectorCombine.ROWS then
                t.res.map (fun r => MatrixRef.slice r 0 gpu_task_len)
              else t.res
            let t : Trace := { t with cudaSlots := slots, res_cuda := res_cuda }
            match cudaTaskLoop fuel 0 gpu_task_len blksize t.len with
            | none => { t with fault := some Fault.notTerminated }
            | some ranges =>
              { t with
                cudaTasks :=
                  ranges.map (fun r =>
                    { func := 1, res := res_cuda, rl := r.1, ru := r.2,
                      bs := blksize, offset := 0 }) }

/-- Lines 150-217: the block that only a build with `USE_CUDA` contains, run if
`ctx && ctx->useCUDA() && funcs.size() > 1`. -/
def stageAccelerator (USE_CUDA : Bool) (fuel : Nat) (c : Call) (t : Trace) : Trace :=
  match USE_CUDA, c.ctx with
  | true, some ctx => if cudaSelected c then stageCUDA fuel c ctx t else t
  | _, _ => t

/-- Lines 225-272: the CPU queue, its workers and its tasks. -/
def stageCPU (fuel : Nat) (c : Call) (t : Trace) : Trace :=
  let cpu_task_len := (t.len + UINT64 - t.gpu_task_len) % UINT64
  let t : Trace := { t with cpu_task_len := cpu_task_len }
  if 0 < cpu_task_len then
    let numCPPworkerThreads :=
      toInt32 (max 0 ((t.numThreads + UINT64 - t.numCUDAworkerThreads) % UINT64))
    let shared := decide (c.combine = VectorCombine.ROWS) && decide (0 < t.gpu_task_len)
    let res_cpp :=
      if shared then t.res.map (fun r => MatrixRef.slice r 0 cpu_task_len) else t.res
    let offset := if shared then t.gpu_task_len else 0
    let t : Trace :=
      { t with numCPPworkerThreads := numCPPworkerThreads, res_cpp := res_cpp,
               offset := offset, q := some t.len }
    match slotLoop fuel t.numThreads (t.numCUDAworkerThreads % UINT32) t.numThreads with
    | Except.error e => { t with fault := some e }
    | Except.ok slots =>
      { t with
        cpuSlots := slots
        cpuTasks :=
          (cpuTaskLoop t.gpu_task_len 0 (c.lp cpu_task_len 1 numCPPworkerThreads)).map
            (fun r =>
              { func := 0, res := res_cpp, rl := r.1, ru := r.2,
                bs := t.batchsize, offset := offset }) }
  else t

/-- Lines 274-278: the barrier. -/
def stageBarrier (fuel : Nat) (t : Trace) : Trace :=
  let active_workers := (toUInt64 t.numCPPworkerThreads + t.numCUDAworkerThreads) % UINT64
  let t : Trace := { t with active_workers := active_workers }
  match slotLoop fuel t.numThreads 0 active_workers with
  | Except.error e => { t with fault := some e }
  | Except.ok slots => { t with joined := slots }

/-- Lines 281-292: destruction of the sub-results. -/
def stageDestroy (c : Call) (t : Trace) : Trace :=
  if cudaSelected c && decide (1 < t.len) && decide (c.combine = VectorCombine.ROWS) then
    { t with destroyed := t.res_cuda.toList ++ t.res_cpp.toList }
  else t

/-- Lines 296-297: deletion of the workers. -/
def stageDelete (fuel : Nat) (t : Trace) : Trace :=
  match slotLoop fuel t.numThreads 0 t.active_workers with
  | Except.error e => { t with fault := some e }
  | Except.ok slots => { t with deleted := slots }

/-- The multi-operand `execute`.  `USE_CUDA` tells whether the build defines the
preprocessor symbol of that name; `fuel` bounds the number of times each loop
tests its condition. -/
def execute (USE_CUDA : Bool) (fuel : Nat) (w : MTWrapper) (c : Call) : Trace :=
  let t := stageSetup w c
  let t := t.andThen (stageAccelerator USE_CUDA fuel c)
  let t := t.andThen (stageCPU fuel c)
  let t := t.andThen (stageBarrier fuel)
  let t := t.andThen (fun t => if USE_CUDA then stageDestroy c t else t)
  t.andThen (stageDelete fuel)

/-! ## The deprecated two-operand `execute` -/

/-- The deprecated two-operand `execute` (lines 55-100). -/
def executeDeprecated (fuel : Nat) (w : MTWrapper) (c : DeprecatedCall) : Trace :=
  let numThreads := readThreads w c.DAPHNE_THREADS
  let t : Trace :=
    { numThreads := numThreads, q := some c.input1.numRows, batchsize := 1,
      res := c.res.map MatrixRef.supplied }
  match slotLoop fuel numThreads 0 numThreads with
  | Except.error e => { t with fault := some e }
  | Except.ok slots =>
    let t : Trace := { t with cpuSlots := slots }
    let t : Trace :=
      if c.res = none then
        { t with allocated := some ((c.input1.numRows : Int), (c.input1.numCols : Int), false)
                 res := some (MatrixRef.created c.input1.numRows c.input1.numCols false) }
      else t
    let rlen := c.input1.numRows
    let t : Trace :=
      { t with
        len := rlen
        cpuTasks :=
          (cpuTaskLoop 0 0 (c.lp rlen 1 (numThreads : Int))).map
            (fun r => { func := 0, res := t.res, rl := r.1, ru := r.2, bs := 1, offset := 0 }) }
    match slotLoop fuel numThreads 0 numThreads with
    | Except.error e => { t with fault := some e }
    | Except.ok joined =>
      let t : Trace := { t with joined := joined }
      match slotLoop fuel numThreads 0 numThreads with
      | Except.error e => { t with fault := some e }
      | Except.ok deleted => { t with deleted := deleted }

/-! ## Notions used to state the properties -/

/-- The half-open range `[rl, ru)` of a task. -/
def Task.range (t : Task) : Nat × Nat := (t.rl, t.ru)

/-- The ranges of all tasks of a call, accelerator queue first. -/
def Trace.ranges (t : Trace) : List (Nat × Nat) :=
  (t.cudaTasks ++ t.cpuTasks).map Task.range

/-- Whether unit `u` lies in the half-open range `r`. -/
def covers (u : Nat) (r : Nat × Nat) : Bool := decide (r.1 ≤ u) && decide (u < r.2)

/-- The number of ranges that unit `u` lies in. -/
def coverCount (ranges : List (Nat × Nat)) (u : Nat) : Nat := ranges.countP (covers u)

/-- The ranges form a partition of `[lo, hi)`: each is non-empty, every unit of
`[lo, hi)` lies in exactly one of them and every other unit in none. -/
def IsPartition (ranges : List (Nat × Nat)) (lo hi : Nat) : Prop :=
  (∀ r ∈ ranges, r.1 < r.2) ∧
  ∀ u, coverCount ranges u = if lo ≤ u ∧ u < hi then 1 else 0

/-- The ranges that the chunk sizes `c_1, ..., c_k` describe from `start` on: range
`i` starts at `start + c_1 + ... + c_(i-1)` and is `c_i` units long. -/
def chunkRanges (start : Nat) : List Nat → List (Nat × Nat)
  | [] => []
  | c :: cs => (start, start + c) :: chunkRanges (start + c) cs

/-- The largest number of rows among the operands split by rows (0 if there is
none): the claimed value of `len`, restricted to the policy `ROWS`. -/
def maxRowsOfRowSplit : List (VectorSplit × DenseMatrix) → Nat
  | [] => 0
  | op :: ops =>
    if op.1 = VectorSplit.ROWS then max op.2.numRows (maxRowsOfRowSplit ops)
    else maxRowsOfRowSplit ops

/-- The extent of an operand along its split dimension, as the specification
defines it: rows for `ROWS`, columns for `COLS`; an operand that is not split
does not count. -/
def splitExtent (op : VectorSplit × DenseMatrix) : Nat :=
  match op.1 with
  | VectorSplit.ROWS => op.2.numRows
  | VectorSplit.COLS => op.2.numCols
  | VectorSplit.NONE => 0

/-- The length of the specification: the maximum split extent over all operands. -/
def specLen (operands : List (VectorSplit × DenseMatrix)) : Nat :=
  (operands.map splitExtent).foldr max 0

/-- The fields that only `stageSetup` writes. -/
def Trace.setupFields (t : Trace) :
    Nat × Nat × Nat × Option (Int × Int × Bool) × Option MatrixRef :=
  (t.numThreads, t.len, t.mem_required, t.allocated, t.res)

/-! ## Example calls -/

/-- One gibibyte, in bytes. -/
def GiB : Nat := 1073741824

/-- A matrix of 4 rows of 268435456 eight-byte values: a buffer of 8 GiB. -/
def wide4 : DenseMatrix := { numRows := 4, numCols := 268435456, bufferSize := 8 * GiB }

/-- A 4 x 4 matrix of eight-byte values. -/
def square4 : DenseMatrix := { numRows := 4, numCols := 4, bufferSize := 128 }

/-- A call on the operand `wide4`, split by rows, with a supplied result of the
same shape (16 GiB of memory in all), a pipeline with an accelerator variant and
one accelerator device of the given memory budget.  The load partitioner hands
out the given chunk sizes. -/
def heterogeneousCall (memBudget : Nat) (combine : VectorCombine) (env : Option Int)
    (chunks : List Nat) : Call :=
  { DAPHNE_THREADS := env
    funcs := 2
    res := some wide4
    operands := [(VectorSplit.ROWS, wide4)]
    numOutputs := 1
    outRows := 4
    outCols := 268435456
    combine := combine
    ctx := some { useCUDA := true, cuda_contexts := 1, memBudget := memBudget }
    createdBufferSize := 8 * GiB
    lp := fun _ _ _ => chunks }

/-- The call `heterogeneousCall` with a budget of 8 GiB and combine policy `ROWS`:
the accelerator and the CPU share the 4 rows; the chunk sizes are 1 and 1. -/
def sharedCall : Call := heterogeneousCall (8 * GiB) .ROWS none [1, 1]

/-- The call `sharedCall` with combine policy `COLS`. -/
def sharedColsCall : Call := heterogeneousCall (8 * GiB) .COLS none [1, 1]

/-- The call `sharedCall` on a device with a budget of 12 GiB. -/
def block3Call : Call := heterogeneousCall (12 * GiB) .ROWS none [1, 1]

/-- The call `heterogeneousCall` with a pipeline of a single function, so that no
accelerator is selected; the chunk sizes are 2 and 2. -/
def singleFunctionCall : Call :=
  { heterogeneousCall (8 * GiB) .ROWS none [2, 2] with funcs := 1 }

/-- A call on one column of 33554435 rows of 8 bytes with a result of the same
shape, on a device with a memory budget of 16 GiB. -/
def longColumnCall : Call :=
  { DAPHNE_THREADS := none
    funcs := 2
    res := some { numRows := 33554435, numCols := 1, bufferSize := 268435480 }
    operands := [(VectorSplit.ROWS, { numRows := 33554435, numCols := 1, bufferSize := 268435480 })]
    numOutputs := 1
    outRows := 33554435
    outCols := 1
    combine := VectorCombine.ROWS
    ctx := some { useCUDA := true, cuda_contexts := 1, memBudget := 16 * GiB }
    createdBufferSize := 268435480
    lp := fun _ _ _ => [] }

/-- A call on one operand of 4 rows of one byte with a result of the same shape,
on a device with a memory budget of 8 GiB. -/
def narrowColumnCall : Call :=
  { DAPHNE_THREADS := none
    funcs := 2
    res := some { numRows := 4, numCols := 1, bufferSize := 4 }
    operands := [(VectorSplit.ROWS, { numRows := 4, numCols := 1, bufferSize := 4 })]
    numOutputs := 1
    outRows := 4
    outCols := 1
    combine := VectorCombine.ROWS
    ctx := some { useCUDA := true, cuda_contexts := 1, memBudget := 8 * GiB }
    createdBufferSize := 4
    lp := fun _ _ _ => [] }

/-- A call without accelerator on the operand `square4`, split by rows; the load
partitioner hands out the given chunk sizes. -/
def cpuCall (res : Option DenseMatrix) (outRows : Int) (chunks : List Nat) : Call :=
  { DAPHNE_THREADS := none
    funcs := 1
    res := res
    operands := [(VectorSplit.ROWS, square4)]
    numOutputs := 1
    outRows := outRows
    outCols := 4
    combine := VectorCombine.ROWS
    ctx := none
    createdBufferSize := 128
    lp := fun _ _ _ => chunks }

/-- The call `cpuCall` without result made with `DAPHNE_THREADS` set to `v`; the
chunk sizes are 2 and 2. -/
def cpuCallWithThreads (v : Int) : Call :=
  { cpuCall none 4 [2, 2] with DAPHNE_THREADS := some v }

/-- A call without accelerator on one operand of 2 rows and 3 columns that is
split by columns. -/
def colsCall : Call :=
  { DAPHNE_THREADS := none
    funcs := 1
    res := some { numRows := 2, numCols := 3, bufferSize := 48 }
    operands := [(VectorSplit.COLS, { numRows := 2, numCols := 3, bufferSize := 48 })]
    numOutputs := 1
    outRows := 2
    outCols := 3
    combine := VectorCombine.COLS
    ctx := none
    createdBufferSize := 48
    lp := fun _ _ _ => [] }

/-- A call of the deprecated overload on two 4 x 4 matrices. -/
def deprecatedCall (chunks : List Nat) : DeprecatedCall :=
  { DAPHNE_THREADS := none
    res := none
    input1 := square4
    input2 := square4
    lp := fun _ _ _ => chunks }

/-! ## Lemmas on the stages of `execute` -/

/-! ### Proof rules for the chain of stages -/

theorem andThen_cases {Q : Trace → Prop} (t : Trace) (f : Trace → Trace)
    (h1 : t.fault ≠ none → Q t) (h2 : t.fault = none → Q (f t)) : Q (t.andThen f) := by
  unfold Trace.andThen
  split
  · rename_i x hx
    exact h1 (by simp [hx])
  · rename_i hx
    exact h2 hx

theorem andThen_preserves {Q : Trace → Prop} (t : Trace) (f : Trace → Trace)
    (ht : Q t) (hf : ∀ s, Q s → Q (f s)) : Q (t.andThen f) :=
  andThen_cases t f (fun _ => ht) (fun _ => hf t ht)

theorem stageAccelerator_cases {P : Trace → Prop} (U : Bool) (fuel : Nat) (c : Call)
    (t : Trace) (h0 : P t)
    (h1 : U = true → cudaSelected c = true → ∀ ctx, c.ctx = some ctx →
      P (stageCUDA fuel c ctx t)) :
    P (stageAccelerator U fuel c t) := by
  unfold stageAccelerator
  split
  · rename_i ctx hctx
    split
    · rename_i hsel
      exact h1 rfl hsel ctx hctx
    · exact h0
  · exact h0

/-- Proof rule for `execute`: a property `P` of the state before the CPU stage and
a property `Q` of the state from the CPU stage on. -/
theorem execute_cases (U : Bool) (fuel : Nat) (w : MTWrapper) (c : Call)
    (P Q : Trace → Prop)
    (h0 : P (stageSetup w c))
    (h1 : U = true → cudaSelected c = true → ∀ ctx s, c.ctx = some ctx → P s →
      s.fault = none → P (stageCUDA fuel c ctx s))
    (h2 : ∀ s, P s → s.fault ≠ none → Q s)
    (h3 : ∀ s, P s → s.fault = none → Q (stageCPU fuel c s))
    (h4 : ∀ s, Q s → Q (stageBarrier fuel s))
    (h5 : U = true → ∀ s, Q s → Q (stageDestroy c s))
    (h6 : ∀ s, Q s → Q (stageDelete fuel s)) :
    Q (execute U fuel w c) := by
  unfold execute
  simp only
  apply andThen_preserves _ _ _ h6
  apply andThen_preserves _ _ _ (fun s hs => by
    split
    · rename_i hU
      exact h5 hU s hs
    · exact hs)
  apply andThen_preserves _ _ _ h4
  have hP : P ((stageSetup w c).andThen (stageAccelerator U fuel c)) := by
    apply andThen_cases
    · intro _; exact h0
    · intro hf
      exact stageAccelerator_cases U fuel c _ h0
        (fun hU hsel ctx hctx => h1 hU hsel ctx _ hctx h0 hf)
  exact andThen_cases _ _ (h2 _ hP) (h3 _ hP)

theorem stageBarrier_eq (fuel : Nat) (s : Trace) :
    ∃ a j f, stageBarrier fuel s = { s with active_workers := a, joined := j, fault := f } := by
  unfold stageBarrier
  simp only
  split
  · exact ⟨_, s.joined, _, rfl⟩
  · exact ⟨_, _, s.fault, rfl⟩

theorem stageDestroy_eq (c : Call) (s : Trace) :
    ∃ d, stageDestroy c s = { s with destroyed := d } := by
  unfold stageDestroy
  split
  · exact ⟨_, rfl⟩
  · exact ⟨s.destroyed, rfl⟩

theorem stageDelete_eq (fuel : Nat) (s : Trace) :
    ∃ k f, stageDelete fuel s = { s with deleted := k, fault := f } := by
  unfold stageDelete
  split
  · exact ⟨s.deleted, _, rfl⟩
  · exact ⟨_, s.fault, rfl⟩

/-- Proof rule for properties that do not depend on what the barrier and the
cleanup write. -/
theorem execute_rule (U : Bool) (fuel : Nat) (w : MTWrapper) (c : Call)
    (P Q : Trace → Prop)
    (h0 : P (stageSetup w c))
    (h1 : U = true → cudaSelected c = true → ∀ ctx s, c.ctx = some ctx → P s →
      s.fault = none → P (stageCUDA fuel c ctx s))
    (h2 : ∀ s, P s → s.fault ≠ none → Q s)
    (h3 : ∀ s, P s → s.fault = none → Q (stageCPU fuel c s))
    (h4 : ∀ s a j d k f, Q s →
      Q { s with active_workers := a, joined := j, destroyed := d, deleted := k, fault := f }) :
    Q (execute U fuel w c) := by
  apply execute_cases U fuel w c P Q h0 h1 h2 h3
  · intro s hs
    obtain ⟨a, j, f, h⟩ := stageBarrier_eq fuel s
    rw [h]
    exact h4 s a j s.destroyed s.deleted f hs
  · intro _ s hs
    obtain ⟨d, h⟩ := stageDestroy_eq c s
    rw [h]
    exact h4 s s.active_workers s.joined d s.deleted s.fault hs
  · intro s hs
    obtain ⟨k, f, h⟩ := stageDelete_eq fuel s
    rw [h]
    exact h4 s s.active_workers s.joined s.destroyed k f hs

/-! ### What the stages after the setup leave unchanged -/

theorem stageCUDA_setupFields (fuel c ctx t) :
    (stageCUDA fuel c ctx t).setupFields = t.setupFields := by
  unfold stageCUDA
  simp only
  repeat' split
  all_goals rfl

theorem stageCPU_setupFields (fuel c t) : (stageCPU fuel c t).setupFields = t.setupFields := by
  unfold stageCPU
  simp only
  repeat' split
  all_goals rfl

theorem stageBarrier_setupFields (fuel t) : (stageBarrier fuel t).setupFields = t.setupFields := by
  unfold stageBarrier
  simp only
  repeat' split
  all_goals rfl

theorem stageDestroy_setupFields (c t) : (stageDestroy c t).setupFields = t.setupFields := by
  unfold stageDestroy
  repeat' split
  all_goals rfl

theorem stageDelete_setupFields (fuel t) : (stageDelete fuel t).setupFields = t.setupFields := by
  unfold stageDelete
  repeat' split
  all_goals rfl

theorem execute_setupFields (U fuel w c) :
    (execute U fuel w c).setupFields = (stageSetup w c).setupFields := by
  apply execute_cases U fuel w c (fun s => s.setupFields = (stageSetup w c).setupFields)
    (fun s => s.setupFields = (stageSetup w c).setupFields)
  · rfl
  · intro _ _ ctx s _ hs _; rw [stageCUDA_setupFields]; exact hs
  · intro s hs _; exact hs
  · intro s hs _; rw [stageCPU_setupFields]; exact hs
  · intro s hs; rw [stageBarrier_setupFields]; exact hs
  · intro _ s hs; rw [stageDestroy_setupFields]; exact hs
  · intro s hs; rw [stageDelete_setupFields]; exact hs

/-! ### The sizing loop -/

theorem sizing_foldl_fst (ops : List (VectorSplit × DenseMatrix)) (a b : Nat) :
    (ops.foldl
      (fun (acc : Nat × Nat) (op : VectorSplit × DenseMatrix) =>
        (if op.1 = VectorSplit.ROWS then max acc.1 op.2.numRows else acc.1,
         (acc.2 + op.2.bufferSize) % UINT64))
      (a, b)).1 = max a (maxRowsOfRowSplit ops) := by
  induction ops generalizing a b with
  | nil => simp [maxRowsOfRowSplit]
  | cons op ops ih =>
    simp only [List.foldl_cons, maxRowsOfRowSplit]
    rw [ih]
    split
    · simp [max_assoc]
    · rfl

theorem sizing_len (ops : List (VectorSplit × DenseMatrix)) :
    (sizing ops).1 = maxRowsOfRowSplit ops := by
  unfold sizing
  rw [sizing_foldl_fst]
  simp

theorem stageSetup_len (w c) : (stageSetup w c).len = (sizing c.operands).1 := by
  unfold stageSetup
  simp only
  repeat' split
  all_goals rfl

theorem maxRows_ge (ops : List (VectorSplit × DenseMatrix)) :
    ∀ op ∈ ops, op.1 = VectorSplit.ROWS → op.2.numRows ≤ maxRowsOfRowSplit ops := by
  induction ops with
  | nil => simp
  | cons o ops ih =>
    intro op hop hrows
    simp only [List.mem_cons] at hop
    simp only [maxRowsOfRowSplit]
    rcases hop with rfl | hop
    · simp [hrows]
    · have := ih op hop hrows
      split
      · exact le_trans this (le_max_right _ _)
      · exact this

theorem maxRows_attained (ops : List (VectorSplit × DenseMatrix))
    (h : 0 < maxRowsOfRowSplit ops) :
    ∃ op ∈ ops, op.1 = VectorSplit.ROWS ∧ op.2.numRows = maxRowsOfRowSplit ops := by
  induction ops with
  | nil => simp [maxRowsOfRowSplit] at h
  | cons o ops ih =>
    simp only [maxRowsOfRowSplit] at h ⊢
    split at h
    · rename_i hrows
      simp only [hrows, if_true]
      rcases le_total (maxRowsOfRowSplit ops) o.2.numRows with hle | hle
      · exact ⟨o, by simp, hrows, by simp [hle]⟩
      · have hpos : 0 < maxRowsOfRowSplit ops := by
          rcases Nat.eq_zero_or_pos (maxRowsOfRowSplit ops) with h0 | h0
          · rw [h0] at h hle; simp at h; omega
          · exact h0
        obtain ⟨op, hop, h1, h2⟩ := ih hpos
        exact ⟨op, by simp [hop], h1, by simp [h2, hle]⟩
    · rename_i hrows
      simp only [hrows, if_false]
      obtain ⟨op, hop, h1, h2⟩ := ih h
      exact ⟨op, by simp [hop], h1, h2⟩

theorem maxRows_none (ops : List (VectorSplit × DenseMatrix))
    (h : ∀ op ∈ ops, op.1 ≠ VectorSplit.ROWS) : maxRowsOfRowSplit ops = 0 := by
  induction ops with
  | nil => rfl
  | cons o ops ih =>
    simp only [maxRowsOfRowSplit]
    have ho := h o (by simp)
    simp only [ho, if_false]
    exact ih (fun op hop => h op (by simp [hop]))

/-! ### Outputs of the tasks -/

theorem stageSetup_res_base (w : MTWrapper) (c : Call) :
    ∀ r, (stageSetup w c).res = some r → r.base = r := by
  intro r
  unfold stageSetup
  simp only
  repeat' split
  all_goals simp only [Option.map_eq_some']
  all_goals intro h
  all_goals
    obtain ⟨m, _, rfl⟩ := h
    rfl

theorem stageCUDA_task_res (fuel : Nat) (c : Call) (ctx : DaphneContext) (s : Trace)
    (R : Option MatrixRef) (hR : ∀ r, R = some r → r.base = r)
    (hs : s.res = R ∧ s.cpuTasks = [] ∧ ∀ x ∈ s.cudaTasks, x.res.map MatrixRef.base = R) :
    (stageCUDA fuel c ctx s).res = R ∧ (stageCUDA fuel c ctx s).cpuTasks = [] ∧
      ∀ x ∈ (stageCUDA fuel c ctx s).cudaTasks, x.res.map MatrixRef.base = R := by
  obtain ⟨h1, h2, h3⟩ := hs
  generalize ht : stageCUDA fuel c ctx s = t
  unfold stageCUDA at ht
  simp only at ht
  repeat' split at ht
  all_goals subst ht
  all_goals refine ⟨h1, h2, ?_⟩
  all_goals first
    | exact h3
    | skip
  all_goals
    intro x hx
    simp only [List.mem_map] at hx
    obtain ⟨r, _, rfl⟩ := hx
    simp only [h1]
    cases R with
    | none => rfl
    | some r0 => simp [MatrixRef.base, hR r0 rfl]

theorem stageCPU_task_res (fuel : Nat) (c : Call) (s : Trace)
    (R : Option MatrixRef) (hR : ∀ r, R = some r → r.base = r)
    (hs : s.res = R ∧ s.cpuTasks = [] ∧ ∀ x ∈ s.cudaTasks, x.res.map MatrixRef.base = R) :
    (stageCPU fuel c s).res = R ∧
      ∀ x ∈ (stageCPU fuel c s).cudaTasks ++ (stageCPU fuel c s).cpuTasks,
        x.res.map MatrixRef.base = R := by
  obtain ⟨h1, h2, h3⟩ := hs
  generalize ht : stageCPU fuel c s = t
  unfold stageCPU at ht
  simp only at ht
  repeat' split at ht
  all_goals subst ht
  all_goals refine ⟨h1, ?_⟩
  all_goals intro x hx
  all_goals simp only [List.mem_append, List.mem_map, h2, List.not_mem_nil, or_false] at hx
  all_goals first
    | exact h3 x hx
    | skip
  all_goals
    rcases hx with hx | ⟨r, _, rfl⟩
    · exact h3 x hx
    · simp only [h1]
      cases R with
      | none => rfl
      | some r0 => simp [MatrixRef.base, hR r0 rfl]

theorem execute_task_res (U : Bool) (fuel : Nat) (w : MTWrapper) (c : Call) :
    ∀ x ∈ (execute U fuel w c).cudaTasks ++ (execute U fuel w c).cpuTasks,
      x.res.map MatrixRef.base = (execute U fuel w c).res := by
  have hR := stageSetup_res_base w c
  have key := execute_cases U fuel w c
    (fun s => s.res = (stageSetup w c).res ∧ s.cpuTasks = [] ∧
      ∀ x ∈ s.cudaTasks, x.res.map MatrixRef.base = (stageSetup w c).res)
    (fun s => s.res = (stageSetup w c).res ∧
      ∀ x ∈ s.cudaTasks ++ s.cpuTasks, x.res.map MatrixRef.base = (stageSetup w c).res)
    (by
      refine ⟨rfl, ?_, ?_⟩
      · unfold stageSetup; simp only; repeat' split
        all_goals rfl
      · have : (stageSetup w c).cudaTasks = [] := by
          unfold stageSetup; simp only; repeat' split
          all_goals rfl
        simp [this])
    (fun _ _ ctx s _ hs _ => stageCUDA_task_res fuel c ctx s _ hR hs)
    (fun s hs _ => ⟨hs.1, by simpa [hs.2.1] using hs.2.2⟩)
    (fun s hs _ => stageCPU_task_res fuel c s _ hR hs)
    (fun s hs => by unfold stageBarrier; simp only; split <;> exact hs)
    (fun _ s hs => by unfold stageDestroy; split <;> exact hs)
    (fun s hs => by unfold stageDelete; split <;> exact hs)
  intro x hx
  rw [key.1]
  exact key.2 x hx

/-! ### Loops and chunk ranges -/

theorem slotLoop_eq (fuel size i n : Nat) (hn : n < UINT32) (hi : i ≤ n)
    (hf : n - i < fuel) (hs : n ≤ size) :
    slotLoop fuel size i n = Except.ok (List.range' i (n - i)) := by
  induction fuel generalizing i with
  | zero => omega
  | succ k ih =>
    unfold slotLoop
    by_cases hlt : i < n
    · have hmod : (i + 1) % UINT32 = i + 1 := Nat.mod_eq_of_lt (by omega)
      have hsz : i < size := by omega
      rw [if_pos hlt, if_pos hsz, hmod, ih (i + 1) (by omega) (by omega)]
      have : n - i = (n - (i + 1)) + 1 := by omega
      rw [this, List.range'_succ]
    · have : n - i = 0 := by omega
      rw [if_neg hlt, this]
      rfl

theorem cpuTaskLoop_eq_chunkRanges (e : Nat) (cs : List Nat) (h : e + cs.sum < UINT64) :
    cpuTaskLoop e e cs = chunkRanges e cs := by
  induction cs generalizing e with
  | nil => rfl
  | cons c cs ih =>
    simp only [List.sum_cons] at h
    have hmod : (e + c) % UINT64 = e + c := Nat.mod_eq_of_lt (by omega)
    simp only [cpuTaskLoop, chunkRanges, hmod]
    rw [ih (e + c) (by omega)]

theorem coverCount_chunkRanges (s : Nat) (cs : List Nat) (u : Nat) :
    coverCount (chunkRanges s cs) u = if s ≤ u ∧ u < s + cs.sum then 1 else 0 := by
  induction cs generalizing s with
  | nil =>
    have : ¬ (s ≤ u ∧ u < s) := by omega
    simp [chunkRanges, coverCount, this]
  | cons c cs ih =>
    have ih2 := ih (s + c)
    simp only [coverCount] at ih2 ⊢
    simp only [chunkRanges, List.countP_cons, ih2, List.sum_cons, covers]
    by_cases h1 : s ≤ u <;> by_cases h2 : u < s + c <;> by_cases h3 : s + c ≤ u <;>
      by_cases h4 : u < s + c + cs.sum <;> by_cases h5 : u < s + (c + cs.sum) <;>
      simp [h1, h2, h3, h4, h5] <;> omega

theorem chunkRanges_length (s : Nat) (cs : List Nat) : (chunkRanges s cs).length = cs.length := by
  induction cs generalizing s with
  | nil => rfl
  | cons c cs ih => simp [chunkRanges, ih]

theorem chunkRanges_getElem? (s : Nat) (cs : List Nat) (i : Nat) (h : i < cs.length) :
    (chunkRanges s cs)[i]? =
      some (s + (cs.take i).sum, s + (cs.take i).sum + cs.getD i 0) := by
  induction cs generalizing s i with
  | nil => simp at h
  | cons c cs ih =>
    cases i with
    | zero => simp [chunkRanges]
    | succ j =>
      simp only [List.length_cons, Nat.add_lt_add_iff_right] at h
      simp only [chunkRanges, List.getElem?_cons_succ, List.take_succ_cons, List.sum_cons,
        List.getD_cons_succ]
      rw [ih (s + c) j h]
      simp [Nat.add_assoc]

theorem chunkRanges_nonempty (s : Nat) (cs : List Nat) (h : ∀ c ∈ cs, 0 < c) :
    ∀ r ∈ chunkRanges s cs, r.1 < r.2 := by
  induction cs generalizing s with
  | nil => simp [chunkRanges]
  | cons c cs ih =>
    intro r hr
    simp only [chunkRanges, List.mem_cons] at hr
    rcases hr with rfl | hr
    · have := h c (by simp)
      simp only
      omega
    · exact ih (s + c) (fun x hx => h x (by simp [hx])) r hr

/-! ### The path without accelerator -/

theorem stageSetup_ok (w : MTWrapper) (c : Call) (hout : c.numOutputs = 1)
    (hres : c.res ≠ none ∨ (c.outRows ≠ -1 ∧ c.outCols ≠ -1)) :
    (stageSetup w c).fault = none := by
  unfold stageSetup
  simp only [hout, ne_eq, not_true_eq_false, if_false]
  cases hc : c.res with
  | some m => simp
  | none =>
    rcases hres with h | ⟨h1, h2⟩
    · exact absurd hc h
    · simp [h1, h2]

/-- The fields that are still at their initial values when the setup is over. -/
theorem stageSetup_initial (w : MTWrapper) (c : Call) :
    (stageSetup w c).gpu_task_len = 0 ∧ (stageSetup w c).numCUDAworkerThreads = 0 ∧
    (stageSetup w c).q_CUDA = none ∧ (stageSetup w c).cudaSlots = [] ∧
    (stageSetup w c).cudaTasks = [] ∧ (stageSetup w c).batchsize = 100 ∧
    (stageSetup w c).res_cuda = none ∧ (stageSetup w c).cpuTasks = [] ∧
    (stageSetup w c).offset = 0 ∧ (stageSetup w c).destroyed = [] ∧
    (stageSetup w c).res_cpp = none ∧ (stageSetup w c).cpu_task_len = 0 ∧
    (stageSetup w c).numThreads = readThreads w c.DAPHNE_THREADS := by
  generalize ht : stageSetup w c = t
  unfold stageSetup at ht
  simp only at ht
  repeat' split at ht
  all_goals subst ht
  all_goals exact ⟨rfl, rfl, rfl, rfl, rfl, rfl, rfl, rfl, rfl, rfl, rfl, rfl, rfl⟩

theorem stageSetup_slots (w : MTWrapper) (c : Call) :
    (stageSetup w c).numCUDAworkerThreads = 0 ∧ (stageSetup w c).cudaSlots = [] ∧
    (stageSetup w c).cpuSlots = [] ∧ (stageSetup w c).numCPPworkerThreads = 0 ∧
    (stageSetup w c).numThreads = readThreads w c.DAPHNE_THREADS := by
  generalize ht : stageSetup w c = t
  unfold stageSetup at ht
  simp only at ht
  repeat' split at ht
  all_goals subst ht
  all_goals exact ⟨rfl, rfl, rfl, rfl, rfl⟩

theorem stageCPU_no_accelerator (fuel : Nat) (c : Call) (s : Trace) (len N : Nat)
    (hg : s.gpu_task_len = 0) (hc : s.numCUDAworkerThreads = 0) (hlen : s.len = len)
    (hN : s.numThreads = N) (hN32 : N < UINT32) (hfuel : N < fuel)
    (hpos : 0 < len) (hlt : len < UINT64) :
    (stageCPU fuel c s).cpu_task_len = len ∧
    (stageCPU fuel c s).numCPPworkerThreads = toInt32 N ∧
    (stageCPU fuel c s).cpuSlots = List.range' 0 N ∧
    (stageCPU fuel c s).cpuTasks.map Task.range
      = cpuTaskLoop 0 0 (c.lp len 1 (toInt32 N)) := by
  have h64 : UINT64 = 18446744073709551616 := by decide
  have h32 : UINT32 = 4294967296 := by decide
  have h1 : (len + UINT64 - 0) % UINT64 = len := by
    rw [Nat.sub_zero, Nat.add_mod_right, Nat.mod_eq_of_lt hlt]
  have h2 : (N + UINT64 - 0) % UINT64 = N := by
    rw [Nat.sub_zero, Nat.add_mod_right, Nat.mod_eq_of_lt (by omega)]
  have h3 : slotLoop fuel N (0 % UINT32) N = Except.ok (List.range' 0 N) := by
    have := slotLoop_eq fuel N 0 N hN32 (Nat.zero_le _) (by omega) (le_refl N)
    simpa using this
  unfold stageCPU
  simp only [hg, hc, hlen, hN, h1, h2, h3, hpos, if_true, Nat.zero_max]
  refine ⟨trivial, trivial, trivial, ?_⟩
  rw [List.map_map]
  exact List.map_id _

/-- What the CPU-only path of `execute` does with the chunk sizes `cs`. -/
theorem execute_no_accelerator (U : Bool) (fuel : Nat) (w : MTWrapper) (c : Call)
    (len N : Nat)
    (hsel : U = false ∨ cudaSelected c = false)
    (hout : c.numOutputs = 1)
    (hres : c.res ≠ none ∨ (c.outRows ≠ -1 ∧ c.outCols ≠ -1))
    (hlen : (sizing c.operands).1 = len) (hN : readThreads w c.DAPHNE_THREADS = N)
    (hN32 : N < UINT32) (hfuel : N < fuel) (hpos : 0 < len) (hlt : len < UINT64) :
    (execute U fuel w c).len = len ∧
    (execute U fuel w c).gpu_task_len = 0 ∧
    (execute U fuel w c).cudaTasks = [] ∧
    (execute U fuel w c).cpu_task_len = len ∧
    (execute U fuel w c).numCPPworkerThreads = toInt32 N ∧
    (execute U fuel w c).cpuTasks.map Task.range
      = cpuTaskLoop 0 0 (c.lp len 1 (toInt32 N)) := by
  have hinit := stageSetup_initial w c
  apply execute_cases U fuel w c
    (fun s => s.fault = none ∧ s.gpu_task_len = 0 ∧ s.numCUDAworkerThreads = 0 ∧
      s.len = len ∧ s.numThreads = N ∧ s.cudaTasks = [])
    (fun s => s.len = len ∧ s.gpu_task_len = 0 ∧ s.cudaTasks = [] ∧ s.cpu_task_len = len ∧
      s.numCPPworkerThreads = toInt32 N ∧
      s.cpuTasks.map Task.range = cpuTaskLoop 0 0 (c.lp len 1 (toInt32 N)))
  · exact ⟨stageSetup_ok w c hout hres, hinit.1, hinit.2.1,
      by rw [stageSetup_len, hlen], by rw [hinit.2.2.2.2.2.2.2.2.2.2.2.2, hN],
      hinit.2.2.2.2.1⟩
  · intro hU hs
    rcases hsel with h | h
    · rw [h] at hU; cases hU
    · rw [h] at hs; cases hs
  · intro s hs hf
    exact absurd hs.1 hf
  · intro s hs _
    obtain ⟨_, hg, hc, hl, hn, hct⟩ := hs
    have h := stageCPU_no_accelerator fuel c s len N hg hc hl hn hN32 hfuel hpos hlt
    have hframe := stageCPU_setupFields fuel c s
    simp only [Trace.setupFields, Prod.mk.injEq] at hframe
    refine ⟨by rw [hframe.2.1, hl], ?_, ?_, h.1, h.2.1, h.2.2.2⟩
    · generalize ht : stageCPU fuel c s = t
      unfold stageCPU at ht
      simp only at ht
      repeat' split at ht
      all_goals subst ht
      all_goals exact hg
    · generalize ht : stageCPU fuel c s = t
      unfold stageCPU at ht
      simp only at ht
      repeat' split at ht
      all_goals subst ht
      all_goals exact hct
  · intro s hs
    unfold stageBarrier
    simp only
    split <;> exact hs
  · intro _ s hs
    unfold stageDestroy
    split <;> exact hs
  · intro s hs
    unfold stageDelete
    split <;> exact hs

/-- What the deprecated `execute` does with the chunk sizes. -/
theorem executeDeprecated_tasks (fuel : Nat) (w : MTWrapper) (d : DeprecatedCall) (N : Nat)
    (hN : readThreads w d.DAPHNE_THREADS = N) (hN32 : N < UINT32) (hfuel : N < fuel) :
    (executeDeprecated fuel w d).fault = none ∧
    (executeDeprecated fuel w d).len = d.input1.numRows ∧
    (executeDeprecated fuel w d).cpuTasks.map Task.range
      = cpuTaskLoop 0 0 (d.lp d.input1.numRows 1 (N : Int)) := by
  have h3 : slotLoop fuel N 0 N = Except.ok (List.range' 0 N) := by
    have := slotLoop_eq fuel N 0 N hN32 (Nat.zero_le _) (by omega) (le_refl N)
    simpa using this
  unfold executeDeprecated
  simp only [hN, h3]
  refine ⟨?_, ?_, ?_⟩
  · split <;> rfl
  · trivial
  · rw [List.map_map]
    exact List.map_id _

theorem stageAccelerator_not_selected (U : Bool) (fuel : Nat) (c : Call) (t : Trace)
    (h : U = false ∨ cudaSelected c = false) : stageAccelerator U fuel c t = t := by
  unfold stageAccelerator
  split
  · rename_i ctx hctx
    rcases h with h | h
    · cases h
    · simp [h]
  · rfl

theorem stageDestroy_not_selected (c : Call) (t : Trace) (h : cudaSelected c = false) :
    stageDestroy c t = t := by
  unfold stageDestroy
  simp [h]

theorem execute_not_selected (fuel : Nat) (w : MTWrapper) (c : Call)
    (h : cudaSelected c = false) : execute true fuel w c = execute false fuel w c := by
  unfold execute
  have h1 : stageAccelerator true fuel c = stageAccelerator false fuel c := by
    funext t
    rw [stageAccelerator_not_selected true fuel c t (Or.inr h),
      stageAccelerator_not_selected false fuel c t (Or.inl rfl)]
  have h2 : ∀ t, stageDestroy c t = t := fun t => stageDestroy_not_selected c t h
  simp [h1, h2]

/-- The decisions of `execute` when the accelerator block is not run. -/
theorem execute_cpu_only (U : Bool) (fuel : Nat) (w : MTWrapper) (c : Call)
    (hsel : U = false ∨ cudaSelected c = false) :
    (execute U fuel w c).gpu_task_len = 0 ∧ (execute U fuel w c).numCUDAworkerThreads = 0 ∧
    (execute U fuel w c).q_CUDA = none ∧ (execute U fuel w c).cudaSlots = [] ∧
    (execute U fuel w c).cudaTasks = [] ∧ (execute U fuel w c).res_cuda = none ∧
    (execute U fuel w c).batchsize = 100 ∧ (execute U fuel w c).offset = 0 ∧
    (execute U fuel w c).destroyed = [] ∧
    ((execute U fuel w c).res_cpp = none ∨
      (execute U fuel w c).res_cpp = (execute U fuel w c).res) ∧
    ∀ x ∈ (execute U fuel w c).cpuTasks,
      x.func = 0 ∧ x.res = (execute U fuel w c).res ∧ x.bs = 100 ∧ x.offset = 0 := by
  have hinit := stageSetup_initial w c
  obtain ⟨i1, i2, i3, i4, i5, i6, i7, i8, i9, i10, i11, -, -⟩ := hinit
  apply execute_cases U fuel w c
    (fun s => s.gpu_task_len = 0 ∧ s.numCUDAworkerThreads = 0 ∧ s.q_CUDA = none ∧
      s.cudaSlots = [] ∧ s.cudaTasks = [] ∧ s.res_cuda = none ∧ s.batchsize = 100 ∧
      s.offset = 0 ∧ s.destroyed = [] ∧ s.res_cpp = none ∧ s.cpuTasks = [])
    (fun s => s.gpu_task_len = 0 ∧ s.numCUDAworkerThreads = 0 ∧ s.q_CUDA = none ∧
      s.cudaSlots = [] ∧ s.cudaTasks = [] ∧ s.res_cuda = none ∧ s.batchsize = 100 ∧
      s.offset = 0 ∧ s.destroyed = [] ∧ (s.res_cpp = none ∨ s.res_cpp = s.res) ∧
      ∀ x ∈ s.cpuTasks, x.func = 0 ∧ x.res = s.res ∧ x.bs = 100 ∧ x.offset = 0)
  · exact ⟨i1, i2, i3, i4, i5, i7, i6, i9, i10, i11, i8⟩
  · intro hU hs
    rcases hsel with h | h
    · rw [h] at hU; cases hU
    · rw [h] at hs; cases hs
  · intro s hs _
    obtain ⟨a1, a2, a3, a4, a5, a6, a7, a8, a9, a10, a11⟩ := hs
    exact ⟨a1, a2, a3, a4, a5, a6, a7, a8, a9, Or.inl a10, by simp [a11]⟩
  · intro s hs _
    obtain ⟨a1, a2, a3, a4, a5, a6, a7, a8, a9, a10, a11⟩ := hs
    generalize ht : stageCPU fuel c s = t
    unfold stageCPU at ht
    simp only [a1, Nat.lt_irrefl, decide_False, Bool.and_false, Bool.false_eq_true,
      if_false] at ht
    repeat' split at ht
    all_goals subst ht
    · refine ⟨rfl, a2, a3, a4, a5, a6, a7, rfl, a9, Or.inr rfl, ?_⟩
      simp [a11]
    · refine ⟨rfl, a2, a3, a4, a5, a6, a7, rfl, a9, Or.inr rfl, ?_⟩
      intro x hx
      simp only [List.mem_map] at hx
      obtain ⟨r, _, rfl⟩ := hx
      exact ⟨rfl, rfl, a7, rfl⟩
    · exact ⟨rfl, a2, a3, a4, a5, a6, a7, a8, a9, Or.inl a10, by simp [a11]⟩
  · intro s hs
    unfold stageBarrier
    simp only
    split <;> exact hs
  · intro hU s hs
    rcases hsel with h | h
    · rw [h] at hU; cases hU
    · rw [stageDestroy_not_selected c s h]
      exact hs
  · intro s hs
    unfold stageDelete
    split <;> exact hs

/-! ### Offsets -/

theorem stageCUDA_offsets (fuel : Nat) (c : Call) (ctx : DaphneContext) (s : Trace)
    (hs : s.cpuTasks = [] ∧ s.cpu_task_len = 0 ∧ ∀ x ∈ s.cudaTasks, x.offset = 0) :
    (stageCUDA fuel c ctx s).cpuTasks = [] ∧ (stageCUDA fuel c ctx s).cpu_task_len = 0 ∧
      ∀ x ∈ (stageCUDA fuel c ctx s).cudaTasks, x.offset = 0 := by
  obtain ⟨h1, h2, h3⟩ := hs
  generalize ht : stageCUDA fuel c ctx s = t
  unfold stageCUDA at ht
  simp only at ht
  repeat' split at ht
  all_goals subst ht
  all_goals refine ⟨h1, h2, ?_⟩
  all_goals first
    | exact h3
    | skip
  all_goals
    intro x hx
    simp only [List.mem_map] at hx
    obtain ⟨r, _, rfl⟩ := hx
    rfl

theorem stageCPU_offsets (fuel : Nat) (c : Call) (s : Trace)
    (hs : s.cpuTasks = [] ∧ s.cpu_task_len = 0 ∧ ∀ x ∈ s.cudaTasks, x.offset = 0) :
    (∀ x ∈ (stageCPU fuel c s).cudaTasks, x.offset = 0) ∧
    (∀ x ∈ (stageCPU fuel c s).cpuTasks,
      x.offset = if c.combine = VectorCombine.ROWS then (stageCPU fuel c s).gpu_task_len
        else 0) ∧
    ((stageCPU fuel c s).cpu_task_len = 0 → (stageCPU fuel c s).cpuTasks = []) := by
  obtain ⟨h1, h2, h3⟩ := hs
  generalize ht : stageCPU fuel c s = t
  unfold stageCPU at ht
  simp only at ht
  repeat' split at ht
  all_goals subst ht
  all_goals refine ⟨h3, ?_, ?_⟩
  all_goals first
    | (intro _; exact h1)
    | (intro h0; simp only at h0; omega)
    | (intro x hx; simp [h1] at hx; done)
    | (intro x hx
       simp only [List.mem_map] at hx
       obtain ⟨r, _, rfl⟩ := hx
       by_cases hc : c.combine = VectorCombine.ROWS <;> simp_all)

/-! ### Runs that reach the end -/

theorem andThen_ok (t : Trace) (f : Trace → Trace) (h : (t.andThen f).fault = none) :
    t.fault = none ∧ t.andThen f = f t := by
  unfold Trace.andThen at h ⊢
  split at h
  · rename_i x hx
    rw [hx] at h
    cases h
  · rename_i hx
    simp [hx]

/-- The last stage of `execute` in a build with or without `USE_CUDA`. -/
theorem execute_ok (U : Bool) (fuel : Nat) (w : MTWrapper) (c : Call)
    (h : (execute U fuel w c).fault = none) :
    ∃ t1 t2 t3 t4,
      t1 = stageAccelerator U fuel c (stageSetup w c) ∧ t2 = stageCPU fuel c t1 ∧
      t3 = stageBarrier fuel t2 ∧ t4 = (if U then stageDestroy c t3 else t3) ∧
      execute U fuel w c = stageDelete fuel t4 ∧
      (stageSetup w c).fault = none ∧ t1.fault = none ∧ t2.fault = none ∧
      t3.fault = none ∧ t4.fault = none := by
  unfold execute at h ⊢
  simp only at h ⊢
  obtain ⟨h5, e5⟩ := andThen_ok _ _ h
  obtain ⟨h4, e4⟩ := andThen_ok _ _ h5
  obtain ⟨h3, e3⟩ := andThen_ok _ _ h4
  obtain ⟨h2, e2⟩ := andThen_ok _ _ h3
  obtain ⟨h1, e1⟩ := andThen_ok _ _ h2
  rw [e1] at e2 h2 e3 h3 e4 h4 e5 h5 ⊢
  rw [e2] at e3 h3 e4 h4 e5 h5 ⊢
  rw [e3] at e4 h4 e5 h5 ⊢
  rw [e4] at e5 h5 ⊢
  exact ⟨_, _, _, _, rfl, rfl, rfl, rfl, e5, h1, h2, h3, h4, h5⟩

theorem toFloat_exact (n : Nat) (h : n < 2 ^ 24) : toFloat n = n := by
  unfold toFloat roundToSignificand
  have he : excessBits 24 64 n = 0 := by
    show excessBits 24 (63 + 1) n = 0
    have h2 : n < 16777216 := by
      norm_num at h
      exact h
    unfold excessBits
    simp [h2]
  simp [he, Nat.mod_one]

/-! ### Units of the two pools -/

theorem stageCUDA_units (fuel : Nat) (c : Call) (ctx : DaphneContext) (s : Trace)
    (hlen : s.len < 2 ^ 24) (hf : (stageCUDA fuel c ctx s).fault = none) :
    (stageCUDA fuel c ctx s).gpu_task_len
      = if toFloat s.mem_required < toFloat ctx.memBudget then s.len else (s.len + 1) / 2 := by
  have hx := toFloat_exact s.len hlen
  generalize ht : stageCUDA fuel c ctx s = t at hf ⊢
  unfold stageCUDA at ht
  simp only [hx] at ht
  repeat' split at ht
  all_goals subst ht
  all_goals simp only at hf
  all_goals first
    | cases hf
    | (simp_all; done)
    | (simp_all
       rw [if_neg]
       omega)

theorem stageCPU_units (fuel : Nat) (c : Call) (s : Trace) :
    (stageCPU fuel c s).gpu_task_len = s.gpu_task_len ∧
    (stageCPU fuel c s).cpu_task_len = (s.len + UINT64 - s.gpu_task_len) % UINT64 := by
  generalize ht : stageCPU fuel c s = t
  unfold stageCPU at ht
  simp only at ht
  repeat' split at ht
  all_goals subst ht
  all_goals exact ⟨rfl, rfl⟩

/-! ## The claims -/

/-! ### C1: Coverage of `[0, len)` by all tasks -/

/-- C1: on a 4-row call that the accelerator and the CPU share (accelerator units
2, CPU units 2, chunk sizes 1 and 1), the CPU task ranges are `[2, 1)` and
`[1, 2)`: the first is empty, unit 1 lies in two ranges and units 2 and 3 lie in
none, so the ranges do not partition `[0, 4)`. -/
theorem C1_cpu_ranges_do_not_continue_after_accelerator :
    (execute true 8 (MTWrapper.new 4) sharedCall).fault = none ∧
    (execute true 8 (MTWrapper.new 4) sharedCall).len = 4 ∧
    (execute true 8 (MTWrapper.new 4) sharedCall).gpu_task_len = 2 ∧
    (execute true 8 (MTWrapper.new 4) sharedCall).cpu_task_len = 2 ∧
    (execute true 8 (MTWrapper.new 4) sharedCall).cudaTasks.map Task.range = [(0, 2)] ∧
    (execute true 8 (MTWrapper.new 4) sharedCall).cpuTasks.map Task.range
      = [(2, 1), (1, 2)] ∧
    coverCount (execute true 8 (MTWrapper.new 4) sharedCall).ranges 1 = 2 ∧
    coverCount (execute true 8 (MTWrapper.new 4) sharedCall).ranges 2 = 0 ∧
    coverCount (execute true 8 (MTWrapper.new 4) sharedCall).ranges 3 = 0 ∧
    ¬ IsPartition (execute true 8 (MTWrapper.new 4) sharedCall).ranges 0 4 := by
  refine ⟨by decide, by decide, by decide, by decide, by decide, by decide, by decide,
    by decide, by decide, ?_⟩
  intro h
  have h3 := h.2 3
  revert h3
  decide

/-! ### C2: Task generation without accelerator -/

/-- C2: when no accelerator pool is active (the build has no accelerator support
or none is selected), in a well-formed call (one output, a result or shape hints
for it, a thread count that fits `uint32_t`) with `len > 0` and for the chunk
sizes `cs` that the load partitioner returns for `len` units, if their sum is
`len` then `execute` enqueues one CPU task per chunk, in order, task `i` starting
at the sum of the first `i` chunk sizes and ending `cs[i]` units later, and every
unit of `[0, len)` lies in exactly one task range (units from `len` on in none).
The deprecated two-operand `execute` does the same over the rows of `input1`. -/
theorem C2_cpu_tasks_follow_the_chunks :
    (∀ (U : Bool) (fuel : Nat) (w : MTWrapper) (c : Call) (len N : Nat) (cs : List Nat),
      (U = false ∨ cudaSelected c = false) →
      c.numOutputs = 1 →
      (c.res ≠ none ∨ (c.outRows ≠ -1 ∧ c.outCols ≠ -1)) →
      (sizing c.operands).1 = len → readThreads w c.DAPHNE_THREADS = N →
      N < UINT32 → N < fuel → 0 < len → len < UINT64 →
      c.lp len 1 (toInt32 N) = cs → cs.sum = len →
      (execute U fuel w c).len = len ∧
      (execute U fuel w c).gpu_task_len = 0 ∧
      (execute U fuel w c).cudaTasks = [] ∧
      (execute U fuel w c).cpu_task_len = len ∧
      (execute U fuel w c).numCPPworkerThreads = toInt32 N ∧
      (execute U fuel w c).cpuTasks.length = cs.length ∧
      (execute U fuel w c).cpuTasks.map Task.range = chunkRanges 0 cs ∧
      (∀ i, i < cs.length →
        ((execute U fuel w c).cpuTasks.map Task.range)[i]?
          = some ((cs.take i).sum, (cs.take i).sum + cs.getD i 0)) ∧
      ∀ u, coverCount (execute U fuel w c).ranges u = if u < len then 1 else 0) ∧
    (∀ (fuel : Nat) (w : MTWrapper) (d : DeprecatedCall) (N : Nat) (cs : List Nat),
      readThreads w d.DAPHNE_THREADS = N → N < UINT32 → N < fuel →
      0 < d.input1.numRows → d.input1.numRows < UINT64 →
      d.lp d.input1.numRows 1 (N : Int) = cs → cs.sum = d.input1.numRows →
      (executeDeprecated fuel w d).cpuTasks.length = cs.length ∧
      (executeDeprecated fuel w d).cpuTasks.map Task.range = chunkRanges 0 cs ∧
      (∀ i, i < cs.length →
        ((executeDeprecated fuel w d).cpuTasks.map Task.range)[i]?
          = some ((cs.take i).sum, (cs.take i).sum + cs.getD i 0)) ∧
      ∀ u, coverCount ((executeDeprecated fuel w d).cpuTasks.map Task.range) u
        = if u < d.input1.numRows then 1 else 0) := by
  constructor
  · intro U fuel w c len N cs hsel hout hres hlen hN hN32 hfuel hpos hlt hcs hsum
    obtain ⟨h1, h2, h3, h4, h5, h6⟩ :=
      execute_no_accelerator U fuel w c len N hsel hout hres hlen hN hN32 hfuel hpos hlt
    rw [hcs, cpuTaskLoop_eq_chunkRanges 0 cs (by omega)] at h6
    refine ⟨h1, h2, h3, h4, h5, ?_, h6, ?_, ?_⟩
    · have := congrArg List.length h6
      simpa [chunkRanges_length] using this
    · intro i hi
      rw [h6, chunkRanges_getElem? 0 cs i hi]
      simp
    · intro u
      have hr : (execute U fuel w c).ranges = chunkRanges 0 cs := by
        unfold Trace.ranges
        rw [h3, List.nil_append, h6]
      rw [hr, coverCount_chunkRanges, hsum]
      simp
  · intro fuel w d N cs hN hN32 hfuel _ hlt hcs hsum
    obtain ⟨_, _, h6⟩ := executeDeprecated_tasks fuel w d N hN hN32 hfuel
    rw [hcs, cpuTaskLoop_eq_chunkRanges 0 cs (by omega)] at h6
    refine ⟨?_, h6, ?_, ?_⟩
    · have := congrArg List.length h6
      simpa [chunkRanges_length] using this
    · intro i hi
      rw [h6, chunkRanges_getElem? 0 cs i hi]
      simp
    · intro u
      rw [h6, coverCount_chunkRanges, hsum]
      simp

/-- C2 at the scenario of the specification: 4 rows, chunk sizes 2 and 2, give the
tasks `[0, 2)` and `[2, 4)`, in both overloads. -/
theorem C2_cpu_tasks_follow_the_chunks_witness :
    (execute false 8 (MTWrapper.new 2) (cpuCall none 4 [2, 2])).cpuTasks.map Task.range
      = [(0, 2), (2, 4)] ∧
    (executeDeprecated 8 (MTWrapper.new 2) (deprecatedCall [2, 2])).cpuTasks.map Task.range
      = [(0, 2), (2, 4)] :=
  ⟨(C2_cpu_tasks_follow_the_chunks.1 false 8 (MTWrapper.new 2) (cpuCall none 4 [2, 2]) 4 2 [2, 2]
      (Or.inl rfl) rfl (Or.inr ⟨by decide, by decide⟩) (by decide) (by decide) (by decide)
      (by decide) (by decide) (by decide) rfl (by decide)).2.2.2.2.2.2.1,
   (C2_cpu_tasks_follow_the_chunks.2 8 (MTWrapper.new 2) (deprecatedCall [2, 2]) 2 [2, 2]
      (by decide) (by decide) (by decide) (by decide) (by decide) rfl (by decide)).2.1⟩

/-! ### C3: Accelerator blocks -/

/-- C3: on a 4-row call with 2 accelerator units and an accelerator block size of
3, the only accelerator task is `[0, 3)`, which ends beyond the accelerator
units; and with a block size of `2 ^ 32` the loop counter never advances, so the
accelerator task loop does not end. -/
theorem C3_accelerator_task_ends_beyond_accelerator_units :
    (execute true 8 (MTWrapper.new 4) block3Call).fault = none ∧
    (execute true 8 (MTWrapper.new 4) block3Call).gpu_task_len = 2 ∧
    (execute true 8 (MTWrapper.new 4) block3Call).batchsize = 3 ∧
    (execute true 8 (MTWrapper.new 4) block3Call).cudaTasks.map Task.range = [(0, 3)] ∧
    (execute true 8 (MTWrapper.new 4) narrowColumnCall).gpu_task_len = 4 ∧
    (execute true 8 (MTWrapper.new 4) narrowColumnCall).len = 4 ∧
    (execute true 8 (MTWrapper.new 4) narrowColumnCall).batchsize = 4294967296 ∧
    (execute true 8 (MTWrapper.new 4) narrowColumnCall).fault = some Fault.notTerminated ∧
    ∀ fuel, cudaTaskLoop fuel 0 4 4294967296 4 = none := by
  refine ⟨by decide, by decide, by decide, by decide, by decide, by decide, by decide,
    by decide, ?_⟩
  intro fuel
  induction fuel with
  | zero => rfl
  | succ n ih =>
    have hk : (0 + 4294967296) % UINT32 = 0 := by decide
    simp only [cudaTaskLoop, hk, ih]
    decide

/-- When the accelerator gets all `len` units and the loop counter cannot wrap,
the accelerator task loop ends and its blocks cover every unit of `[k, len)`
exactly once. -/
theorem cudaTaskLoop_covers_all (fuel k b len : Nat) (hb : 0 < b) (hk : k ≤ len)
    (hw : len + b ≤ UINT32) (hfuel : len - k < fuel) :
    ∃ l, cudaTaskLoop fuel k len b len = some l ∧
      (∀ r ∈ l, r.1 < r.2 ∧ r.2 ≤ len) ∧
      ∀ u, coverCount l u = if k ≤ u ∧ u < len then 1 else 0 := by
  have h32 : UINT32 = 4294967296 := by decide
  have h64 : UINT64 = 18446744073709551616 := by decide
  induction fuel generalizing k with
  | zero => omega
  | succ n ih =>
    unfold cudaTaskLoop
    by_cases hlt : k < len
    · have m32 : (k + b) % UINT32 = k + b := Nat.mod_eq_of_lt (by omega)
      have m64 : (k + b) % UINT64 = k + b := Nat.mod_eq_of_lt (by omega)
      rw [if_pos hlt, m32, m64]
      by_cases hnext : k + b < len
      · obtain ⟨l, hl, hr, hc⟩ := ih (k + b) (by omega) (by omega)
        refine ⟨(k, min (k + b) len) :: l, by rw [hl]; rfl, ?_, ?_⟩
        · intro r hr2
          simp only [List.mem_cons] at hr2
          rcases hr2 with rfl | hr2
          · simp only
            omega
          · exact hr r hr2
        · intro u
          have hc2 := hc u
          simp only [coverCount] at hc2 ⊢
          rw [List.countP_cons, hc2]
          have hmin : min (k + b) len = k + b := by omega
          simp only [covers, hmin]
          by_cases h1 : k ≤ u <;> by_cases h2 : u < k + b <;> by_cases h3 : u < len <;>
            by_cases h4 : k + b ≤ u <;> simp [h1, h2, h3, h4] <;> omega
      · have hstop : cudaTaskLoop n (k + b) len b len = some [] := by
          cases n with
          | zero => omega
          | succ j =>
            unfold cudaTaskLoop
            rw [if_neg hnext]
        refine ⟨[(k, min (k + b) len)], by rw [hstop]; rfl, ?_, ?_⟩
        · intro r hr2
          simp only [List.mem_singleton] at hr2
          subst hr2
          simp only
          omega
        · intro u
          have hmin : min (k + b) len = len := by omega
          simp only [coverCount, List.countP_cons, List.countP_nil, covers, hmin]
          by_cases h1 : k ≤ u <;> by_cases h3 : u < len <;> simp [h1, h3]
    · rw [if_neg hlt]
      refine ⟨[], rfl, by simp, ?_⟩
      intro u
      have : ¬ (k ≤ u ∧ u < len) := by omega
      simp [coverCount, this]

/-! ### C4: Heterogeneous split -/

/-- C4: on a column of 33554435 rows that fits the memory budget of the device,
the accelerator units are 33554436, one more than `len`, and the CPU units wrap
to `2 ^ 64 - 1`. -/
theorem C4_accelerator_units_exceed_len :
    (execute true 8 (MTWrapper.new 4) longColumnCall).fault = none ∧
    (execute true 8 (MTWrapper.new 4) longColumnCall).len = 33554435 ∧
    (execute true 8 (MTWrapper.new 4) longColumnCall).mem_required = 536870960 ∧
    toFloat 536870960 < toFloat (16 * GiB) ∧
    toFloat 33554435 = 33554436 ∧
    (execute true 8 (MTWrapper.new 4) longColumnCall).gpu_task_len = 33554436 ∧
    (execute true 8 (MTWrapper.new 4) longColumnCall).cpu_task_len = 18446744073709551615 := by
  refine ⟨by decide, by decide, by decide, by decide, by decide, by decide, by decide⟩

/-- For a length below `2 ^ 24`, which single precision represents exactly, a run
of the accelerator block that reaches its end gives the accelerator all units if
the required memory is below the budget (both in single precision) and half of
them, rounded up, otherwise; the CPU gets the rest, without wrap-around. -/
theorem execute_units_of_small_len (fuel : Nat) (w : MTWrapper) (c : Call)
    (ctx : DaphneContext) (hctx : c.ctx = some ctx) (hsel : cudaSelected c = true)
    (hlen : (execute true fuel w c).len < 2 ^ 24)
    (hf : (execute true fuel w c).fault = none) :
    (execute true fuel w c).gpu_task_len
      = (if toFloat (execute true fuel w c).mem_required < toFloat ctx.memBudget
          then (execute true fuel w c).len else ((execute true fuel w c).len + 1) / 2) ∧
    (execute true fuel w c).cpu_task_len
      = (execute true fuel w c).len - (execute true fuel w c).gpu_task_len ∧
    (execute true fuel w c).gpu_task_len ≤ (execute true fuel w c).len ∧
    (execute true fuel w c).gpu_task_len + (execute true fuel w c).cpu_task_len
      = (execute true fuel w c).len := by
  have h64 : UINT64 = 18446744073709551616 := by decide
  have hsf := execute_setupFields true fuel w c
  simp only [Trace.setupFields, Prod.mk.injEq] at hsf
  obtain ⟨-, hl, hm, -, -⟩ := hsf
  rw [hl] at hlen ⊢
  rw [hm]
  obtain ⟨t1, t2, t3, t4, e1, e2, e3, e4, e5, -, f1, -, -, -⟩ := execute_ok true fuel w c hf
  have he : stageAccelerator true fuel c (stageSetup w c)
      = stageCUDA fuel c ctx (stageSetup w c) := by
    simp [stageAccelerator, hctx, hsel]
  rw [he] at e1
  rw [e1] at f1
  have hg := stageCUDA_units fuel c ctx (stageSetup w c) hlen f1
  have h1 := stageCUDA_setupFields fuel c ctx (stageSetup w c)
  simp only [Trace.setupFields, Prod.mk.injEq] at h1
  have hc := stageCPU_units fuel c t1
  obtain ⟨a, j, f, hb⟩ := stageBarrier_eq fuel t2
  obtain ⟨d, hd⟩ : ∃ d, t4 = { t3 with destroyed := d } := by
    rw [e4]
    exact stageDestroy_eq c t3
  obtain ⟨k, f5, hk⟩ := stageDelete_eq fuel t4
  have hgpu : (execute true fuel w c).gpu_task_len = t1.gpu_task_len := by
    rw [e5, hk, hd, e3, hb, e2, hc.1]
  have hcpu : (execute true fuel w c).cpu_task_len
      = (t1.len + UINT64 - t1.gpu_task_len) % UINT64 := by
    rw [e5, hk, hd, e3, hb, e2, hc.2]
  have hl1 : t1.len = (stageSetup w c).len := by rw [e1]; exact h1.2.1
  rw [hgpu, hcpu, hl1, e1, hg]
  split
  · refine ⟨rfl, ?_, le_refl _, ?_⟩
    · rw [Nat.add_sub_cancel_left, Nat.mod_self, Nat.sub_self]
    · rw [Nat.add_sub_cancel_left, Nat.mod_self]
      rfl
  · have h2 : ((stageSetup w c).len + 1) / 2 ≤ (stageSetup w c).len := by omega
    have h3 : (stageSetup w c).len + UINT64 - ((stageSetup w c).len + 1) / 2
        = ((stageSetup w c).len - ((stageSetup w c).len + 1) / 2) + UINT64 := by omega
    have h4 : (stageSetup w c).len < UINT64 := by
      have : (2 : Nat) ^ 24 = 16777216 := by norm_num
      omega
    refine ⟨rfl, ?_, h2, ?_⟩
    · rw [h3, Nat.add_mod_right, Nat.mod_eq_of_lt (by omega)]
    · rw [h3, Nat.add_mod_right, Nat.mod_eq_of_lt (by omega)]
      omega

/-! ### C5: Output allocation -/

/-- C5 (as stated, refuted): a call without a result whose row hint is -1 makes no
allocation; the result stays null and its buffer size is taken from a null
pointer. -/
theorem C5_no_allocation_without_shape_hint :
    (cpuCall none (-1) [2, 2]).res = none ∧
    (execute false 8 (MTWrapper.new 4) (cpuCall none (-1) [2, 2])).allocated = none ∧
    (execute false 8 (MTWrapper.new 4) (cpuCall none (-1) [2, 2])).res = none ∧
    (execute false 8 (MTWrapper.new 4) (cpuCall none (-1) [2, 2])).fault
      = some Fault.nullResult := by
  refine ⟨by decide, by decide, by decide, by decide⟩

/-- C5 (amended): in a call with one output, if the caller supplies no result and
both shape hints `outRows[0]` and `outCols[0]` differ from -1, `execute` allocates
a result of `outRows[0]` x `outCols[0]` that is zero-filled if and only if
`combines[0]` is `ADD`, adds the buffer size of that matrix to the required
memory and leaves the result pointer on it; if the caller supplies a result,
`execute` allocates none, adds the buffer size of the supplied matrix and leaves
the result pointer on it.  In either case the output of every task is the result
or a view of it. -/
theorem C5_output_allocation (U : Bool) (fuel : Nat) (w : MTWrapper) (c : Call)
    (hout : c.numOutputs = 1) :
    (c.res = none → c.outRows ≠ -1 → c.outCols ≠ -1 →
      (execute U fuel w c).allocated
        = some (c.outRows, c.outCols, decide (c.combine = VectorCombine.ADD)) ∧
      (execute U fuel w c).res
        = some (MatrixRef.created c.outRows c.outCols (decide (c.combine = VectorCombine.ADD))) ∧
      (execute U fuel w c).mem_required
        = ((sizing c.operands).2 + c.createdBufferSize) % UINT64) ∧
    (∀ m, c.res = some m →
      (execute U fuel w c).allocated = none ∧
      (execute U fuel w c).res = some (MatrixRef.supplied m) ∧
      (execute U fuel w c).mem_required = ((sizing c.operands).2 + m.bufferSize) % UINT64) ∧
    (∀ x ∈ (execute U fuel w c).cudaTasks ++ (execute U fuel w c).cpuTasks,
      x.res.map MatrixRef.base = (execute U fuel w c).res) := by
  have h := execute_setupFields U fuel w c
  simp only [Trace.setupFields, Prod.mk.injEq] at h
  obtain ⟨-, -, hmem, halloc, hres⟩ := h
  refine ⟨?_, ?_, execute_task_res U fuel w c⟩
  · intro hnull hr hc
    rw [halloc, hres, hmem]
    simp [stageSetup, hout, hnull, hr, hc, resBufferSize]
  · intro m hm
    rw [halloc, hres, hmem]
    simp [stageSetup, hout, hm, resBufferSize]

/-- C5 (amended), at a call without result and at a call with a result. -/
theorem C5_output_allocation_witness :
    (execute false 8 (MTWrapper.new 4) (cpuCall none 4 [2, 2])).allocated
      = some (4, 4, false) ∧
    (execute false 8 (MTWrapper.new 4) (cpuCall (some square4) 4 [2, 2])).allocated = none ∧
    (execute false 8 (MTWrapper.new 4) (cpuCall (some square4) 4 [2, 2])).res
      = some (MatrixRef.supplied square4) :=
  ⟨((C5_output_allocation false 8 (MTWrapper.new 4) (cpuCall none 4 [2, 2]) rfl).1
      rfl (by decide) (by decide)).1,
   ((C5_output_allocation false 8 (MTWrapper.new 4) (cpuCall (some square4) 4 [2, 2]) rfl).2.1
      square4 rfl).1,
   ((C5_output_allocation false 8 (MTWrapper.new 4) (cpuCall (some square4) 4 [2, 2]) rfl).2.1
      square4 rfl).2.1⟩

/-! ### C6: Offsets -/

/-- C6 (as stated, refuted): on a call that the accelerator and the CPU share
(accelerator units 2, CPU units 2) with combine policy `COLS`, the CPU tasks get
the offset 0, not the accelerator units. -/
theorem C6_offset_is_zero_for_cols :
    (execute true 8 (MTWrapper.new 4) sharedColsCall).fault = none ∧
    (execute true 8 (MTWrapper.new 4) sharedColsCall).gpu_task_len = 2 ∧
    (execute true 8 (MTWrapper.new 4) sharedColsCall).cpu_task_len = 2 ∧
    (execute true 8 (MTWrapper.new 4) sharedColsCall).cudaTasks.length = 1 ∧
    (execute true 8 (MTWrapper.new 4) sharedColsCall).cpuTasks.map (fun x => x.offset)
      = [0, 0] := by
  refine ⟨by decide, by decide, by decide, by decide, by decide⟩

/-- C6 (amended): every accelerator task gets the offset 0.  Every CPU task gets
the accelerator units as offset when the combine policy of the output is `ROWS`
and the accelerator pool is active, and the offset 0 when the combine policy is
`COLS` or `ADD` or when the accelerator pool is not active (then the accelerator
units are 0); when there are no CPU units there is no CPU task. -/
theorem C6_offset_of_tasks (U : Bool) (fuel : Nat) (w : MTWrapper) (c : Call) :
    (∀ x ∈ (execute U fuel w c).cudaTasks, x.offset = 0) ∧
    (∀ x ∈ (execute U fuel w c).cpuTasks,
      x.offset = if c.combine = VectorCombine.ROWS then (execute U fuel w c).gpu_task_len
        else 0) ∧
    ((U = false ∨ cudaSelected c = false) →
      (execute U fuel w c).gpu_task_len = 0 ∧
      ∀ x ∈ (execute U fuel w c).cpuTasks, x.offset = 0) ∧
    ((execute U fuel w c).cpu_task_len = 0 → (execute U fuel w c).cpuTasks = []) := by
  have hinit := stageSetup_initial w c
  have key := execute_rule U fuel w c
    (fun s => s.cpuTasks = [] ∧ s.cpu_task_len = 0 ∧ ∀ x ∈ s.cudaTasks, x.offset = 0)
    (fun s => (∀ x ∈ s.cudaTasks, x.offset = 0) ∧
      (∀ x ∈ s.cpuTasks,
        x.offset = if c.combine = VectorCombine.ROWS then s.gpu_task_len else 0) ∧
      (s.cpu_task_len = 0 → s.cpuTasks = []))
    ⟨hinit.2.2.2.2.2.2.2.1, hinit.2.2.2.2.2.2.2.2.2.2.2.1, by simp [hinit.2.2.2.2.1]⟩
    (fun _ _ ctx s _ hs _ => stageCUDA_offsets fuel c ctx s hs)
    (fun s hs _ => ⟨hs.2.2, by simp [hs.1], fun _ => hs.1⟩)
    (fun s hs _ => stageCPU_offsets fuel c s hs)
    (fun s _ _ _ _ _ hs => hs)
  refine ⟨key.1, key.2.1, ?_, key.2.2⟩
  intro hsel
  have h := execute_cpu_only U fuel w c hsel
  exact ⟨h.1, fun x hx => (h.2.2.2.2.2.2.2.2.2.2 x hx).2.2.2⟩

/-- C6 (amended) at a call that the accelerator and the CPU share with combine
policy `ROWS`: both CPU tasks get the offset 2, the accelerator units. -/
theorem C6_offset_of_tasks_witness :
    (execute true 8 (MTWrapper.new 4) sharedCall).gpu_task_len = 2 ∧
    (execute true 8 (MTWrapper.new 4) sharedCall).cpuTasks.length = 2 ∧
    ∀ x ∈ (execute true 8 (MTWrapper.new 4) sharedCall).cpuTasks,
      x.offset = 2 :=
  ⟨by decide, by decide, fun x hx =>
    ((C6_offset_of_tasks true 8 (MTWrapper.new 4)
      sharedCall).2.1 x hx).trans (by decide)⟩

/-! ### C7: Length of the partitioned dimension -/

/-- C7 (as stated, refuted): for an operand of 2 rows and 3 columns that is split
by columns the claimed length is 3, the extent along the split dimension, but
`execute` computes the length 0. -/
theorem C7_cols_operand_is_not_measured :
    (execute false 8 (MTWrapper.new 4) colsCall).fault = none ∧
    specLen colsCall.operands = 3 ∧
    (execute false 8 (MTWrapper.new 4) colsCall).len = 0 ∧
    (execute false 8 (MTWrapper.new 4) colsCall).len ≠ specLen colsCall.operands := by
  refine ⟨by decide, by decide, by decide, by decide⟩

/-- C7 (amended): the length that `execute` partitions is the maximum number of
rows over the operands whose split policy is `ROWS`: it bounds the rows of every
such operand, it is attained by one of them when it is positive, and it is 0 when
no operand is split by rows.  Operands with any other policy do not count. -/
theorem C7_len_is_max_rows_of_row_split (U : Bool) (fuel : Nat) (w : MTWrapper) (c : Call) :
    (execute U fuel w c).len = maxRowsOfRowSplit c.operands ∧
    (∀ op ∈ c.operands, op.1 = VectorSplit.ROWS →
      op.2.numRows ≤ (execute U fuel w c).len) ∧
    (0 < (execute U fuel w c).len →
      ∃ op ∈ c.operands, op.1 = VectorSplit.ROWS ∧ op.2.numRows = (execute U fuel w c).len) ∧
    ((∀ op ∈ c.operands, op.1 ≠ VectorSplit.ROWS) → (execute U fuel w c).len = 0) := by
  have hlen : (execute U fuel w c).len = maxRowsOfRowSplit c.operands := by
    have h := execute_setupFields U fuel w c
    simp only [Trace.setupFields, Prod.mk.injEq] at h
    rw [h.2.1, stageSetup_len, sizing_len]
  rw [hlen]
  exact ⟨rfl, maxRows_ge c.operands, maxRows_attained c.operands, maxRows_none c.operands⟩

/-- C7 (amended) at a call with one operand of 4 rows that is split by rows: the
length is 4. -/
theorem C7_len_is_max_rows_of_row_split_witness :
    (execute false 8 (MTWrapper.new 4) (cpuCall none 4 [2, 2])).len = 4 :=
  (C7_len_is_max_rows_of_row_split false 8 (MTWrapper.new 4) (cpuCall none 4 [2, 2])).1.trans
    (by decide)

/-! ### C8: Spawned, joined and deleted workers -/

/-- C9: the constructor turns a count of 0 into 32, but the `DAPHNE_THREADS`
override is taken as it is: with `DAPHNE_THREADS=0` the call runs with 0 worker
threads (none is started), and `DAPHNE_THREADS=-1` gives 4294967295; a count of
-1 given to the constructor arrives as 4294967295 and is kept. -/
theorem C9_override_is_not_clamped :
    (MTWrapper.new 0)._numThreads = 32 ∧
    (execute false 8 (MTWrapper.new 0) (cpuCall none 4 [2, 2])).numThreads = 32 ∧
    (execute false 8 (MTWrapper.new 4) (cpuCallWithThreads 0)).numThreads = 0 ∧
    (execute false 8 (MTWrapper.new 4) (cpuCallWithThreads 0)).cpuSlots = [] ∧
    (execute false 8 (MTWrapper.new 4) (cpuCallWithThreads 0)).cpuTasks.map Task.range
      = [(0, 2), (2, 4)] ∧
    (execute false 8 (MTWrapper.new 4) (cpuCallWithThreads 0)).fault = none ∧
    (execute false 8 (MTWrapper.new 4) (cpuCallWithThreads (-1))).numThreads = 4294967295 ∧
    (executeDeprecated 8 (MTWrapper.new 4)
      { deprecatedCall [2, 2] with DAPHNE_THREADS := some 0 }).numThreads = 0 ∧
    (MTWrapper.new (toUInt32 (-1)))._numThreads = 4294967295 := by
  refine ⟨by decide, by decide, by decide, by decide, by decide, by decide, by decide,
    by decide, by decide⟩

/-- The constructor never leaves a thread count of 0, and without the
`DAPHNE_THREADS` override `execute` uses the count of the constructor. -/
theorem constructor_clamps (n : Nat) (U : Bool) (fuel : Nat) (c : Call)
    (henv : c.DAPHNE_THREADS = none) :
    (MTWrapper.new 0)._numThreads = 32 ∧
    (0 < n → (MTWrapper.new n)._numThreads = n) ∧
    (MTWrapper.new n)._numThreads ≠ 0 ∧
    (execute U fuel (MTWrapper.new n) c).numThreads = (MTWrapper.new n)._numThreads := by
  refine ⟨rfl, ?_, ?_, ?_⟩
  · intro h
    have : ¬ n ≤ 0 := by omega
    simp [MTWrapper.new, this]
  · unfold MTWrapper.new
    simp only
    split <;> omega
  · have h := execute_setupFields U fuel (MTWrapper.new n) c
    simp only [Trace.setupFields, Prod.mk.injEq] at h
    rw [h.1, (stageSetup_slots _ c).2.2.2.2, henv]
    rfl

/-! ### C10: A call without a selected accelerator -/

/-- C10: in a build with accelerator support, a call for which no accelerator is
selected (no context, a context that reports no accelerator, or a pipeline with a
single function) runs exactly as in the build without accelerator support: the
two traces are equal, with 0 accelerator units, no accelerator queue, worker or
task, batch size 100, offset 0, the full result as output of every CPU task, and
no sub-result destroyed. -/
theorem C10_not_selected_accelerator_same_as_cpu_build (fuel : Nat) (w : MTWrapper)
    (c : Call) (h : cudaSelected c = false) :
    execute true fuel w c = execute false fuel w c ∧
    (execute true fuel w c).gpu_task_len = 0 ∧
    (execute true fuel w c).numCUDAworkerThreads = 0 ∧
    (execute true fuel w c).q_CUDA = none ∧
    (execute true fuel w c).cudaSlots = [] ∧
    (execute true fuel w c).cudaTasks = [] ∧
    (execute true fuel w c).res_cuda = none ∧
    (execute true fuel w c).batchsize = 100 ∧
    (execute true fuel w c).offset = 0 ∧
    (execute true fuel w c).destroyed = [] ∧
    ((execute true fuel w c).res_cpp = none ∨
      (execute true fuel w c).res_cpp = (execute true fuel w c).res) ∧
    ∀ x ∈ (execute true fuel w c).cpuTasks,
      x.func = 0 ∧ x.res = (execute true fuel w c).res ∧ x.bs = 100 ∧ x.offset = 0 :=
  ⟨execute_not_selected fuel w c h, execute_cpu_only true fuel w c (Or.inr h)⟩

/-- C10 at a call whose context has an accelerator but whose pipeline has a single
function. -/
theorem C10_not_selected_accelerator_same_as_cpu_build_witness :
    cudaSelected singleFunctionCall = false ∧
    execute true 8 (MTWrapper.new 4) singleFunctionCall
      = execute false 8 (MTWrapper.new 4) singleFunctionCall ∧
    (execute true 8 (MTWrapper.new 4) singleFunctionCall).cpuTasks.map Task.range
      = [(0, 2), (2, 4)] :=
  ⟨by decide,
   (C10_not_selected_accelerator_same_as_cpu_build 8 (MTWrapper.new 4) singleFunctionCall
      (by decide)).1,
   by decide⟩

end Daphne
